import Mathlib

/-!
Shallow embedding of the request-execution and persistence core of the
figapi playground (frontend `src/frontend/src/App.js`, plus the spec-modelled
backend stores and extractors that the frontend calls).

The frontend functions `executeRequest`, `parseHeaders`, `toggleFavorite`
and `clearHistory` are translated from the source.  The backend components
(`ProxyExecutor` envelope shape, `PageExtractor`, `SavedRequestStore`,
`HistoryStore`) are not part of `src/` (only their HTTP callers are), so they
are modelled from the spec where a claim needs them; each such definition
carries a doc comment starting `Modelled from the spec:`.
-/

namespace Figapi

/-- JSON values as produced by the ECMAScript `JSON.parse` primitive.
Numbers keep their raw literal text (JS numbers are IEEE doubles; no claim
depends on numeric arithmetic, only on the value's type and identity). -/
inductive Json where
  | null
  | bool (b : Bool)
  | num (raw : String)
  | str (s : String)
  | arr (elems : List Json)
  | obj (fields : List (String × Json))

/-- The JSON whitespace characters (also those removed by the line-fallback
trimming; JavaScript `trim` removes a wider Unicode class, but the inputs in
play are ASCII). -/
def isWs (c : Char) : Bool :=
  c = ' ' || c = '\t' || c = '\n' || c = '\r'

/-- Drop leading JSON whitespace. -/
def skipWs : List Char → List Char
  | [] => []
  | c :: rest => if isWs c then skipWs rest else c :: rest

/-- Hexadecimal digit value, for `\uXXXX` escapes. -/
def hexVal (c : Char) : Option Nat :=
  if '0' ≤ c ∧ c ≤ '9' then some (c.toNat - '0'.toNat)
  else if 'a' ≤ c ∧ c ≤ 'f' then some (c.toNat - 'a'.toNat + 10)
  else if 'A' ≤ c ∧ c ≤ 'F' then some (c.toNat - 'A'.toNat + 10)
  else none

/-- Single-character JSON string escapes. -/
def escChar (c : Char) : Option Char :=
  if c = '"' then some '"'
  else if c = '\\' then some '\\'
  else if c = '/' then some '/'
  else if c = 'n' then some '\n'
  else if c = 't' then some '\t'
  else if c = 'r' then some '\r'
  else if c = 'b' then some (Char.ofNat 8)
  else if c = 'f' then some (Char.ofNat 12)
  else none

/-- Body of a JSON string literal (the opening quote already consumed);
returns the decoded string and the rest of the input. -/
def parseStringBody : List Char → List Char → Option (String × List Char)
  | acc, '"' :: rest => some (String.mk acc.reverse, rest)
  | acc, '\\' :: 'u' :: a :: b :: c :: d :: rest =>
    match hexVal a, hexVal b, hexVal c, hexVal d with
    | some x, some y, some z, some w =>
      parseStringBody (Char.ofNat (((x * 16 + y) * 16 + z) * 16 + w) :: acc) rest
    | _, _, _, _ => none
  | acc, '\\' :: c :: rest =>
    match escChar c with
    | some e => parseStringBody (e :: acc) rest
    | none => none
  | acc, c :: rest => if c.toNat < 32 then none else parseStringBody (c :: acc) rest
  | _, [] => none

/-- Longest prefix of decimal digits. -/
def takeDigits : List Char → List Char × List Char
  | [] => ([], [])
  | c :: rest =>
    if c.isDigit then
      let (ds, r) := takeDigits rest
      (c :: ds, r)
    else ([], c :: rest)

/-- Optional fraction part `.digits` of a JSON number (none = malformed). -/
def parseFrac : List Char → Option (List Char × List Char)
  | '.' :: rest =>
    match takeDigits rest with
    | ([], _) => none
    | (ds, r) => some ('.' :: ds, r)
  | cs => some ([], cs)

/-- Optional exponent part of a JSON number (none = malformed). -/
def parseExp : List Char → Option (List Char × List Char)
  | [] => some ([], [])
  | c :: rest =>
    if c = 'e' ∨ c = 'E' then
      let (sgn, r1) : List Char × List Char :=
        match rest with
        | '+' :: r => (['+'], r)
        | '-' :: r => (['-'], r)
        | r => ([], r)
      match takeDigits r1 with
      | ([], _) => none
      | (ds, r2) => some (c :: (sgn ++ ds), r2)
    else some ([], c :: rest)

/-- JSON number literal (JSON grammar: optional minus, `0` or nonzero-led
digits, optional fraction, optional exponent); returns the raw text. -/
def parseNumber (cs : List Char) : Option (String × List Char) :=
  let (sgn, cs1) : List Char × List Char :=
    match cs with
    | '-' :: r => (['-'], r)
    | _ => ([], cs)
  match cs1 with
  | [] => none
  | c :: r =>
    if c = '0' then
      match parseFrac r with
      | none => none
      | some (f, r2) =>
        match parseExp r2 with
        | none => none
        | some (e, r3) => some (String.mk (sgn ++ [c] ++ f ++ e), r3)
    else if c.isDigit then
      let (ds, r1) := takeDigits r
      match parseFrac r1 with
      | none => none
      | some (f, r2) =>
        match parseExp r2 with
        | none => none
        | some (e, r3) => some (String.mk (sgn ++ (c :: ds) ++ f ++ e), r3)
    else none

/-- Insert into a JS object modelled as an ordered association list:
an existing key keeps its position and gets the new value; a new key is
appended (ECMAScript property-assignment semantics). -/
def objInsert {α : Type} : List (String × α) → String → α → List (String × α)
  | [], k, v => [(k, v)]
  | (k', v') :: rest, k, v =>
    if k' = k then (k', v) :: rest else (k', v') :: objInsert rest k v

/-- Property lookup in a JS object modelled as an association list
(keys are unique by construction via `objInsert`). -/
def objGet {α : Type} : List (String × α) → String → Option α
  | [], _ => none
  | (k', v) :: rest, k => if k' = k then some v else objGet rest k

mutual
/-- One JSON value (fuel-indexed recursive-descent parser for the
ECMAScript `JSON.parse` grammar). -/
def parseValue : Nat → List Char → Option (Json × List Char)
  | 0, _ => none
  | Nat.succ fuel, cs =>
    match skipWs cs with
    | 'n' :: 'u' :: 'l' :: 'l' :: rest => some (.null, rest)
    | 't' :: 'r' :: 'u' :: 'e' :: rest => some (.bool true, rest)
    | 'f' :: 'a' :: 'l' :: 's' :: 'e' :: rest => some (.bool false, rest)
    | '"' :: rest =>
      match parseStringBody [] rest with
      | some (s, r) => some (.str s, r)
      | none => none
    | '[' :: rest =>
      match skipWs rest with
      | ']' :: r2 => some (.arr [], r2)
      | cs2 =>
        match parseElems fuel cs2 with
        | some (es, r2) => some (.arr es, r2)
        | none => none
    | '{' :: rest =>
      match skipWs rest with
      | '}' :: r2 => some (.obj [], r2)
      | cs2 =>
        match parseFields fuel cs2 with
        | some (fs, r2) =>
          some (.obj (fs.foldl (fun acc p => objInsert acc p.1 p.2) []), r2)
        | none => none
    | cs' =>
      match parseNumber cs' with
      | some (s, r) => some (.num s, r)
      | none => none

/-- Comma-separated JSON array elements up to the closing `]`. -/
def parseElems : Nat → List Char → Option (List Json × List Char)
  | 0, _ => none
  | Nat.succ fuel, cs =>
    match parseValue fuel cs with
    | none => none
    | some (v, rest) =>
      match skipWs rest with
      | ',' :: r2 =>
        match parseElems fuel r2 with
        | some (es, r3) => some (v :: es, r3)
        | none => none
      | ']' :: r2 => some ([v], r2)
      | _ => none

/-- Comma-separated JSON object members up to the closing `}`; duplicate
keys are collapsed later with `objInsert` (last value wins, first position
kept), matching `JSON.parse`. -/
def parseFields : Nat → List Char → Option (List (String × Json) × List Char)
  | 0, _ => none
  | Nat.succ fuel, cs =>
    match skipWs cs with
    | '"' :: rest =>
      match parseStringBody [] rest with
      | none => none
      | some (k, r1) =>
        match skipWs r1 with
        | ':' :: r2 =>
          match parseValue fuel r2 with
          | none => none
          | some (v, r3) =>
            match skipWs r3 with
            | ',' :: r4 =>
              match parseFields fuel r4 with
              | some (fs, r5) => some ((k, v) :: fs, r5)
              | none => none
            | '}' :: r4 => some ([(k, v)], r4)
            | _ => none
        | _ => none
    | _ => none
end

/-- Modelled platform primitive: ECMAScript `JSON.parse` on the JSON
grammar; `none` models a thrown `SyntaxError`.  The fuel bound
`2 * length + 4` exceeds any possible recursion depth (every recursive call
follows consumption of at least one input character). -/
def jsonParse (s : String) : Option Json :=
  match parseValue (2 * s.length + 4) s.data with
  | some (v, rest) => if skipWs rest = [] then some v else none
  | none => none

/-- ECMAScript `String.prototype.split` with a single-character separator
(`"".split(sep)` yields `[""]`, matching this definition). -/
def splitOnChar (sep : Char) : List Char → List (List Char)
  | [] => [[]]
  | c :: rest =>
    let r := splitOnChar sep rest
    if c = sep then [] :: r
    else
      match r with
      | h :: t => (c :: h) :: t
      | [] => [[c]]

/-- `line.split(sep)` on strings. -/
def jsSplit (sep : Char) (s : String) : List String :=
  (splitOnChar sep s.data).map String.mk

/-- ECMAScript `String.prototype.trim` (whitespace here restricted to the
ASCII class `isWs`, which covers every input in play). -/
def jsTrim (s : String) : String :=
  String.mk (((s.data.dropWhile isWs).reverse.dropWhile isWs).reverse)

/-- The line-oriented fallback loop of `parseHeaders`
(`App.js` lines 151-158): split the raw text on newlines, destructure each
line's split-on-`:` as `[key, value]` (so a value is truncated at a second
colon), and assign `headerObj[key.trim()] = value.trim()` whenever both raw
segments are non-empty (JS truthiness of the untrimmed strings). -/
def headerFallback (headers : String) : List (String × String) :=
  (jsSplit '\n' headers).foldl
    (fun acc line =>
      match jsSplit ':' line with
      | key :: value :: _ =>
        if key ≠ "" ∧ value ≠ "" then objInsert acc (jsTrim key) (jsTrim value)
        else acc
      | _ => acc)
    []

/-- `parseHeaders` (`App.js` lines 146-160): empty input yields `{}`;
otherwise the result of `JSON.parse` is returned as-is when it does not
throw (whatever JSON value it is), and only a thrown parse error runs the
line-oriented fallback.  The fallback's string-valued object is embedded
into `Json`. -/
def parseHeaders (headers : String) : Json :=
  if headers = "" then Json.obj []
  else
    match jsonParse headers with
    | some v => v
    | none => Json.obj ((headerFallback headers).map fun p => (p.1, Json.str p.2))

/-- ECMAScript object-spread contribution of a value: objects contribute
their fields, arrays and strings contribute index properties, primitives
contribute nothing. -/
def spreadFields : Json → List (String × Json)
  | .obj fields => fields
  | .arr elems => (elems.enum.map fun p => (toString p.1, p.2))
  | .str s => (s.data.enum.map fun p => (toString p.1, Json.str (String.mk [p.2])))
  | _ => []

/-- The merged outbound headers object of `executeRequest`
(`App.js` lines 116-120): the literal `{'X-Figma-Token': token,
'Content-Type': 'application/json', ...parseHeaders()}` — properties are
assigned left to right, so a user-supplied key that collides with a fixed
one overwrites the fixed value. -/
def requestHeaders (figmaToken : String) (userHeaders : Json) : List (String × Json) :=
  (spreadFields userHeaders).foldl
    (fun acc p => objInsert acc p.1 p.2)
    [("X-Figma-Token", Json.str figmaToken), ("Content-Type", Json.str "application/json")]

/-- The three pre-flight validation failures of `executeRequest`. -/
inductive ValidationError where
  | MissingCredential
  | MissingEndpoint
  | UnresolvedPlaceholder
deriving DecidableEq

/-- The pre-flight gate of `executeRequest` (`App.js` lines 97-112), in
source order: missing token (`!figmaToken`, i.e. empty string), missing
endpoint (`!endpoint`), then `endpoint.includes(':')`.  Each check returns
early, so at most one error is produced. -/
def validate (figmaToken endpoint : String) : Option ValidationError :=
  if figmaToken = "" then some .MissingCredential
  else if endpoint = "" then some .MissingEndpoint
  else if endpoint.data.contains ':' then some .UnresolvedPlaceholder
  else none

/-- The outbound backend call `executeRequest` issues after validation:
which backend route it posts to, and the method/endpoint/headers payload. -/
structure OutboundCall where
  apiEndpoint : String
  method : String
  endpoint : String
  headers : List (String × Json)

/-- `executeRequest`'s request-construction phase (`App.js` lines 96-130):
validation gates the call; on success the backend route is
`/api/figma/page` exactly when the selected method is `PAGE`, the forwarded
method rewrites `PAGE` to `GET`, and the headers are the merged
`requestHeaders`. -/
def executeRequest (figmaToken method endpoint headersRaw : String) :
    Except ValidationError OutboundCall :=
  match validate figmaToken endpoint with
  | some e => .error e
  | none =>
    .ok
      { apiEndpoint := if method = "PAGE" then "/api/figma/page" else "/api/figma/proxy"
        method := if method = "PAGE" then "GET" else method
        endpoint := endpoint
        headers := requestHeaders figmaToken (parseHeaders headersRaw) }

/-- The uniform result envelope: `{error:false, status_code, data}` on an
upstream response (any HTTP status), `{error:true, message}` on a local
failure. -/
inductive Envelope where
  | success (status_code : Nat) (data : Json)
  | failure (message : String)

/-- The `response.error` truthiness check of the rendering code
(`App.js` line 400). -/
def Envelope.isError : Envelope → Bool
  | .success _ _ => false
  | .failure _ => true

/-- Modelled from the spec: the backend ProxyExecutor (route
`/api/figma/proxy`, not in `src/`) returns `{error:false, status_code,
data}` for any HTTP status the upstream returns, including non-2xx; the
upstream body is passed through as-is. -/
def proxyEnvelope (upstreamStatus : Nat) (upstreamBody : Json) : Envelope :=
  .success upstreamStatus upstreamBody

/-- Outcome of the frontend's axios POST to the backend: either the backend
answered 2xx with an envelope body, or the request failed locally
(`error.response?.data?.detail` when a response carried a detail field,
plus the raw `error.message`). -/
inductive AxiosOutcome where
  | success (body : Envelope)
  | failure (detail : Option String) (message : String)

/-- `executeRequest`'s result handling (`App.js` lines 132-139): on success
the backend body is stored as the response verbatim; in the catch block the
response is `{error:true, message: error.response?.data?.detail ||
error.message}` (JS `||`: an absent or empty detail falls back to the raw
error message). -/
def setResponse : AxiosOutcome → Envelope
  | .success body => body
  | .failure detail message =>
    .failure
      (match detail with
       | some d => if d = "" then message else d
       | none => message)

/-- Modelled from the spec: PageExtractor's "no pages" indicator — the spec
fixes only that `data` is an explicit indicator on an empty children list,
not its literal text. -/
def noPagesIndicator : Json :=
  Json.obj [("message", Json.str "No pages found")]

/-- Modelled from the spec: the backend PageExtractor (route
`/api/figma/page`, not in `src/`) issues the file fetch as GET, then
narrows the successful envelope's `data` to the first element of the
document's ordered children list, keeping `status_code`; an empty children
list yields the explicit no-pages indicator, still as a success. -/
def pageExtract (status_code : Nat) (documentChildren : List Json) : Envelope :=
  match documentChildren with
  | first :: _ => .success status_code first
  | [] => .success status_code noPagesIndicator

/-- A persisted saved-request template. -/
structure SavedRequest where
  id : String
  name : String
  method : String
  endpoint : String
  headers : List (String × Json)
  body : String
  category : String
  is_favorite : Bool
  created_at : Nat

/-- Modelled from the spec: SavedRequestStore's `patchFavorite(id,
newValue)` (route `PUT /api/saved-requests/{id}`, not in `src/`) sets
`is_favorite` of the matching record to the new value, leaving every other
field unchanged, and fails with not-found (`none`) when no record has the
id. -/
def patchFavorite (store : List SavedRequest) (rid : String) (v : Bool) :
    Option (List SavedRequest) :=
  if store.any (fun r => r.id = rid) then
    some (store.map fun r => if r.id = rid then { r with is_favorite := v } else r)
  else none

/-- `toggleFavorite` (`App.js` lines 200-207): the frontend sends
`{is_favorite: !isFavorite}` where `isFavorite` is the record's currently
displayed value, so the store patch targets the negation. -/
def toggleFavorite (store : List SavedRequest) (rid : String) (isFavorite : Bool) :
    Option (List SavedRequest) :=
  patchFavorite store rid (!isFavorite)

/-- A persisted history record; `status_code` is the upstream status, or a
sentinel (`none`) when the failure was not an HTTP response. -/
structure HistoryEntry where
  method : String
  endpoint : String
  status_code : Option Nat
  timestamp : Nat
deriving DecidableEq

/-- Modelled from the spec: HistoryStore keeps its entries most recent
first (its `list()` order), so `append` prepends. -/
def historyAppend (hist : List HistoryEntry) (e : HistoryEntry) : List HistoryEntry :=
  e :: hist

/-- Modelled from the spec: `clear()` (route `DELETE /api/request-history`,
triggered by `clearHistory`, `App.js` lines 209-217) empties the log. -/
def historyClear (_ : List HistoryEntry) : List HistoryEntry :=
  []

/-- Modelled from the spec: every backend execution — success or failure —
appends exactly one history entry recording method, endpoint, resulting
status code (or the non-HTTP sentinel) and the execution timestamp. -/
def recordExecution (hist : List HistoryEntry) (method endpoint : String)
    (status_code : Option Nat) (now : Nat) : List HistoryEntry :=
  historyAppend hist
    { method := method, endpoint := endpoint, status_code := status_code, timestamp := now }

/-- One full submission as the backend sees it: a validation failure
returns before any network call, so the history log is untouched; a call
that reaches the backend appends exactly one entry. -/
def executeAndRecord (hist : List HistoryEntry)
    (figmaToken method endpoint headersRaw : String)
    (status_code : Option Nat) (now : Nat) :
    Except ValidationError OutboundCall × List HistoryEntry :=
  match executeRequest figmaToken method endpoint headersRaw with
  | .error e => (.error e, hist)
  | .ok call => (.ok call, recordExecution hist call.method call.endpoint status_code now)

/-! Helper lemmas about JS-object assignment and lookup. -/

theorem objGet_objInsert {α : Type} (l : List (String × α)) (k : String) (v : α)
    (q : String) :
    objGet (objInsert l k v) q = if k = q then some v else objGet l q := by
  induction l with
  | nil => simp [objInsert, objGet]
  | cons p rest ih =>
    obtain ⟨a, b⟩ := p
    by_cases hak : a = k
    · subst hak
      by_cases hq : a = q <;> simp [objInsert, objGet, hq]
    · by_cases hq : a = q
      · subst hq
        have hkq : k ≠ a := fun h => hak h.symm
        simp [objInsert, objGet, hak, hkq]
      · simp [objInsert, objGet, hak, hq, ih]

/-- First-defined choice between two optional lookups. -/
def firstSome {α : Type} : Option α → Option α → Option α
  | some v, _ => some v
  | none, b => b

theorem objGet_foldl {α : Type} (l : List (String × α)) (acc : List (String × α))
    (q : String) :
    objGet (l.foldl (fun a p => objInsert a p.1 p.2) acc) q =
      firstSome (objGet (l.foldl (fun a p => objInsert a p.1 p.2) []) q)
        (objGet acc q) := by
  induction l generalizing acc with
  | nil => simp [objGet, firstSome]
  | cons p rest ih =>
    simp only [List.foldl_cons]
    rw [ih (objInsert acc p.1 p.2), ih (objInsert [] p.1 p.2)]
    cases hx : objGet (rest.foldl (fun a p => objInsert a p.1 p.2) []) q with
    | some v => rfl
    | none =>
      rw [objGet_objInsert, objGet_objInsert]
      by_cases hpq : p.1 = q <;> simp [hpq, objGet, firstSome]

/-! Claim theorems. -/

/-- C1 (counterexample): with token `"tok"` and user headers
`{"X-Figma-Token": "evil"}`, the merged outbound headers carry the
user-supplied value, not the fixed authentication value — the claim that
the fixed header wins on key collision is false. -/
theorem C1_counterexample :
    objGet (requestHeaders "tok" (Json.obj [("X-Figma-Token", Json.str "evil")]))
        "X-Figma-Token" = some (Json.str "evil") ∧
    ¬ objGet (requestHeaders "tok" (Json.obj [("X-Figma-Token", Json.str "evil")]))
        "X-Figma-Token" = some (Json.str "tok") := by
  refine ⟨rfl, fun h => ?_⟩
  have h2 : some (Json.str "evil") = some (Json.str "tok") := h
  injection h2 with h3
  injection h3 with h4
  exact absurd h4 (by decide)

/-- C1 (amended): in the merged outbound headers the user-supplied mapping
wins on key collision — it is spread after the fixed
`X-Figma-Token`/`Content-Type` pair, so any key present in the user headers
object keeps the user's value, and only keys absent from it keep the fixed
values. -/
theorem C1_user_headers_win (t : String) (fields : List (String × Json)) (q : String) :
    objGet (requestHeaders t (Json.obj fields)) q =
      firstSome (objGet (fields.foldl (fun a p => objInsert a p.1 p.2) []) q)
        (objGet [("X-Figma-Token", Json.str t),
                 ("Content-Type", Json.str "application/json")] q) := by
  simpa [requestHeaders, spreadFields] using
    objGet_foldl fields
      [("X-Figma-Token", Json.str t), ("Content-Type", Json.str "application/json")] q

/-- C2 (counterexample): the input `"42"` parses as JSON to a non-object,
yet `parseHeaders` returns the number verbatim instead of running the
line-based fallback (which would yield the empty object). -/
theorem C2_counterexample :
    parseHeaders "42" = Json.num "42" ∧
    Json.num "42" ≠
      Json.obj ((headerFallback "42").map fun p => (p.1, Json.str p.2)) :=
  ⟨rfl, fun h => Json.noConfusion h⟩

/-- C2 (amended): for every non-empty raw header input on which `JSON.parse`
succeeds, `parseHeaders` returns the parse result as-is — whatever JSON
value it is, object or not, with no coercion of values — and the line-based
fallback runs only when `JSON.parse` throws. -/
theorem C2_json_result_verbatim (s : String) (v : Json) (hne : s ≠ "")
    (hp : jsonParse s = some v) :
    parseHeaders s = v := by
  simp [parseHeaders, hne, hp]

/-- C2 witness: the object input `{"a":"b"}` is returned verbatim. -/
theorem C2_witness :
    ("\x7b\"a\":\"b\"\x7d" : String) ≠ "" ∧
    jsonParse "\x7b\"a\":\"b\"\x7d" = some (Json.obj [("a", Json.str "b")]) ∧
    parseHeaders "\x7b\"a\":\"b\"\x7d" = Json.obj [("a", Json.str "b")] :=
  ⟨by decide, rfl, C2_json_result_verbatim _ _ (by decide) rfl⟩

/-- C3 (counterexample): the fallback does not split a line on the first
colon only — `line.split(':')` destructured as `[key, value]` truncates the
value at the second colon, so `"A: b:c"` yields `{"A":"b"}`, not
`{"A":"b:c"}` as the claim requires. -/
theorem C3_counterexample :
    parseHeaders "A: b:c" = Json.obj [("A", Json.str "b")] ∧
    Json.obj [("A", Json.str "b")] ≠ Json.obj [("A", Json.str "b:c")] := by
  refine ⟨rfl, fun h => ?_⟩
  injection h with hf
  injection hf with hp ht
  injection hp with h1 h2
  injection h2 with h3
  exact absurd h3 (by decide)

/-- C3 (amended): on JSON-parse failure `parseHeaders` runs the line scan
and never raises: each line's split on `:` is destructured as its first two
segments (the value is truncated at a second colon), a pair is added when
both raw segments are non-empty, key and value are stored trimmed; the
spec's worked example and the empty-input case hold as stated. -/
theorem C3_fallback_behaviour :
    (∀ s : String, jsonParse s = none →
        parseHeaders s =
          Json.obj ((headerFallback s).map fun p => (p.1, Json.str p.2))) ∧
    parseHeaders "X-Foo: bar\nbadline\nY-Baz:qux" =
      Json.obj [("X-Foo", Json.str "bar"), ("Y-Baz", Json.str "qux")] ∧
    parseHeaders "" = Json.obj [] ∧
    parseHeaders "A: b:c" = Json.obj [("A", Json.str "b")] := by
  refine ⟨fun s hp => ?_, rfl, rfl, rfl⟩
  by_cases hs : s = ""
  · subst hs; rfl
  · simp [parseHeaders, hs, hp]

/-- C3 witness: the fallback applies to the non-JSON input `"badline"`. -/
theorem C3_witness :
    jsonParse "badline" = none ∧
    parseHeaders "badline" =
      Json.obj ((headerFallback "badline").map fun p => (p.1, Json.str p.2)) :=
  ⟨rfl, C3_fallback_behaviour.1 "badline" rfl⟩

/-- C4: validation fails with `MissingCredential` on an empty token, with
`MissingEndpoint` on an empty endpoint (token present), and with
`UnresolvedPlaceholder` whenever the endpoint contains a `:` (earlier
checks passing); every validation failure is terminal — the submission
returns the error with no outbound call constructed and the history log
untouched; `/files/:file_key` fails with `UnresolvedPlaceholder` and
`/files/ABC123` passes with a configured token. -/
theorem C4_validation_terminal (t e : String) :
    (t = "" → validate t e = some ValidationError.MissingCredential) ∧
    (t ≠ "" → e = "" → validate t e = some ValidationError.MissingEndpoint) ∧
    (t ≠ "" → e ≠ "" → e.data.contains ':' = true →
      validate t e = some ValidationError.UnresolvedPlaceholder) ∧
    (∀ hist m h sc now err, validate t e = some err →
      executeAndRecord hist t m e h sc now = (Except.error err, hist)) ∧
    (t ≠ "" → validate t "/files/:file_key" = some ValidationError.UnresolvedPlaceholder) ∧
    (t ≠ "" → validate t "/files/ABC123" = none) := by
  refine ⟨fun ht => by simp [validate, ht],
    fun ht he => by simp [validate, ht, he],
    fun ht he hc => by
      have hm : ':' ∈ e.data := by simpa using hc
      simp [validate, ht, he, hm],
    fun hist m h sc now err hv => ?_,
    fun ht => by simp [validate, ht],
    fun ht => by simp [validate, ht]⟩
  simp [executeAndRecord, executeRequest, hv]

/-- C4 witness: a concrete terminal validation failure and a concrete
success. -/
theorem C4_witness :
    validate "tok" "/files/:file_key" = some ValidationError.UnresolvedPlaceholder ∧
    executeAndRecord [] "tok" "GET" "/files/:file_key" "" none 0 =
      (Except.error ValidationError.UnresolvedPlaceholder, []) ∧
    validate "tok" "/files/ABC123" = none :=
  ⟨(C4_validation_terminal "tok" "/files/:file_key").2.2.2.2.1 (by decide),
   (C4_validation_terminal "tok" "/files/:file_key").2.2.2.1 [] "GET" "" none 0
     ValidationError.UnresolvedPlaceholder
     ((C4_validation_terminal "tok" "/files/:file_key").2.2.2.2.1 (by decide)),
   (C4_validation_terminal "tok" "/files/ABC123").2.2.2.2.2 (by decide)⟩

/-- C5: whenever the selected method is the pseudo-method `PAGE`, the call
that `executeRequest` issues carries HTTP method `GET` (the `PAGE` label is
never forwarded), targets the same endpoint, and is routed to the dedicated
page-extraction backend route rather than the generic proxy route. -/
theorem C5_page_rewritten_to_get (t e h : String) (c : OutboundCall)
    (hc : executeRequest t "PAGE" e h = Except.ok c) :
    c.method = "GET" ∧ c.apiEndpoint = "/api/figma/page" ∧
    c.apiEndpoint ≠ "/api/figma/proxy" ∧ c.endpoint = e := by
  unfold executeRequest at hc
  cases hv : validate t e with
  | some err => rw [hv] at hc; cases hc
  | none =>
    rw [hv] at hc
    cases hc
    refine ⟨by simp, by simp, by simp, rfl⟩

/-- C5 witness: a concrete `PAGE` submission. -/
def pageCall : OutboundCall :=
  { apiEndpoint := "/api/figma/page", method := "GET", endpoint := "/files/ABC",
    headers := [("X-Figma-Token", Json.str "tok"),
                ("Content-Type", Json.str "application/json")] }

/-- C5 witness: executing a `PAGE` request against `/files/ABC` issues a
`GET` on the page-extraction route. -/
theorem C5_witness :
    executeRequest "tok" "PAGE" "/files/ABC" "" = Except.ok pageCall ∧
    pageCall.method = "GET" ∧ pageCall.apiEndpoint = "/api/figma/page" ∧
    pageCall.apiEndpoint ≠ "/api/figma/proxy" ∧ pageCall.endpoint = "/files/ABC" :=
  ⟨rfl, C5_page_rewritten_to_get "tok" "/files/ABC" "" pageCall rfl⟩

/-- C6: a successful `PAGE` execution over a document with ordered children
`A :: rest` returns an envelope of the same success shape as
ProxyExecutor's (same `status_code` field), with `data` exactly the first
child; with no children it still succeeds, with `data` the explicit
no-pages indicator. -/
theorem C6_first_page_only (sc : Nat) (A B C : Json) (rest : List Json) (body : Json) :
    pageExtract sc (A :: rest) = Envelope.success sc A ∧
    pageExtract sc [A, B, C] = Envelope.success sc A ∧
    pageExtract sc [] = Envelope.success sc noPagesIndicator ∧
    (pageExtract sc []).isError = false ∧
    proxyEnvelope sc body = Envelope.success sc body :=
  ⟨rfl, rfl, rfl, rfl, rfl⟩

/-- C7: a local failure produces a structured `{error:true, message}`
envelope whose message is the upstream-provided detail when one is present
and non-empty, else the raw transport error, and is non-empty whenever the
raw error message is; a non-2xx upstream status flows through the proxy
envelope as `{error:false, status_code, data}`, not as a local failure. -/
theorem C7_failure_envelope (d msg : String) (sc : Nat) (body : Json)
    (hmsg : msg ≠ "") :
    (d ≠ "" → setResponse (AxiosOutcome.failure (some d) msg) = Envelope.failure d) ∧
    setResponse (AxiosOutcome.failure (some "") msg) = Envelope.failure msg ∧
    setResponse (AxiosOutcome.failure none msg) = Envelope.failure msg ∧
    (∀ detail : Option String,
      (setResponse (AxiosOutcome.failure detail msg)).isError = true) ∧
    (∀ detail : Option String, ∀ m : String,
      setResponse (AxiosOutcome.failure detail msg) = Envelope.failure m → m ≠ "") ∧
    setResponse (AxiosOutcome.success (proxyEnvelope sc body)) = Envelope.success sc body ∧
    (setResponse (AxiosOutcome.success (proxyEnvelope sc body))).isError = false := by
  refine ⟨fun hd => by simp [setResponse, hd], by simp [setResponse], rfl,
    fun detail => ?_, fun detail m hm => ?_, rfl, rfl⟩
  · cases detail with
    | none => rfl
    | some d' => simp [setResponse, Envelope.isError]
  · cases detail with
    | none =>
      simp only [setResponse] at hm
      injection hm with h1
      exact h1 ▸ hmsg
    | some d' =>
      simp only [setResponse] at hm
      by_cases hd' : d' = ""
      · rw [if_pos hd'] at hm
        injection hm with h1
        exact h1 ▸ hmsg
      · rw [if_neg hd'] at hm
        injection hm with h1
        exact h1 ▸ hd'

/-- C7 witness: concrete local failures and a concrete 404 pass-through. -/
theorem C7_witness :
    setResponse (AxiosOutcome.failure (some "detail") "Network Error") =
      Envelope.failure "detail" ∧
    setResponse (AxiosOutcome.failure none "Network Error") =
      Envelope.failure "Network Error" ∧
    setResponse (AxiosOutcome.success (proxyEnvelope 404 Json.null)) =
      Envelope.success 404 Json.null :=
  ⟨(C7_failure_envelope "detail" "Network Error" 404 Json.null (by decide)).1 (by decide),
   (C7_failure_envelope "detail" "Network Error" 404 Json.null (by decide)).2.2.1,
   (C7_failure_envelope "detail" "Network Error" 404 Json.null (by decide)).2.2.2.2.2.1⟩

/-- A saved request with its mutable favorite flag cleared, for stating
that `patchFavorite` changes no other field. -/
def SavedRequest.clearFav (r : SavedRequest) : SavedRequest :=
  { r with is_favorite := false }

theorem map_patch_self (store : List SavedRequest) (rid : String) (v : Bool)
    (hval : ∀ r ∈ store, r.id = rid → r.is_favorite = v) :
    (store.map fun r => if r.id = rid then { r with is_favorite := v } else r)
      = store := by
  induction store with
  | nil => rfl
  | cons a rest ih =>
    simp only [List.map_cons]
    congr 1
    · by_cases h : a.id = rid
      · have hv' := hval a (List.mem_cons_self a rest) h
        rw [if_pos h, ← hv']
      · rw [if_neg h]
    · exact ih fun r hr hid => hval r (List.mem_cons_of_mem a hr) hid

/-- C8: patching `is_favorite` to the value a record already holds is a
no-op success (not an error); toggling twice through the frontend's
`toggleFavorite` restores the store exactly; and a favorite patch changes
no field other than `is_favorite`. -/
theorem C8_favorite_patch (store : List SavedRequest) (rid : String) (v : Bool)
    (hmem : store.any (fun r => r.id = rid) = true)
    (hval : ∀ r ∈ store, r.id = rid → r.is_favorite = v) :
    patchFavorite store rid v = some store ∧
    (∀ s1, toggleFavorite store rid v = some s1 →
      toggleFavorite s1 rid (!v) = some store) ∧
    (∀ w s', patchFavorite store rid w = some s' →
      s'.map SavedRequest.clearFav = store.map SavedRequest.clearFav) := by
  refine ⟨?_, fun s1 hs1 => ?_, fun w s' hs' => ?_⟩
  · simp only [patchFavorite, hmem, if_pos]
    exact congrArg some (map_patch_self store rid v hval)
  · have h1 : s1 = store.map
        fun r => if r.id = rid then { r with is_favorite := !v } else r := by
      simp only [toggleFavorite, patchFavorite, hmem, if_pos] at hs1
      exact (Option.some.inj hs1).symm
    subst h1
    have hany : (store.map
        fun r => if r.id = rid then { r with is_favorite := !v } else r).any
          (fun r => r.id = rid) = true := by
      rw [List.any_map]
      have hfun : ((fun r : SavedRequest => decide (r.id = rid)) ∘
          fun r => if r.id = rid then { r with is_favorite := !v } else r)
            = fun r : SavedRequest => decide (r.id = rid) := by
        funext r
        by_cases h : r.id = rid <;> simp [h]
      rw [hfun]
      exact hmem
    simp only [toggleFavorite, patchFavorite, hany, if_pos, Bool.not_not,
      List.map_map]
    have hcomp : ((fun r : SavedRequest =>
          if r.id = rid then { r with is_favorite := v } else r) ∘
        fun r => if r.id = rid then { r with is_favorite := !v } else r)
          = fun r : SavedRequest =>
              if r.id = rid then { r with is_favorite := v } else r := by
      funext r
      by_cases h : r.id = rid <;> simp [h]
    rw [hcomp]
    exact congrArg some (map_patch_self store rid v hval)
  · have h1 : s' = store.map
        fun r => if r.id = rid then { r with is_favorite := w } else r := by
      simp only [patchFavorite, hmem, if_pos] at hs'
      exact (Option.some.inj hs').symm
    subst h1
    rw [List.map_map]
    have hcomp : (SavedRequest.clearFav ∘
        fun r => if r.id = rid then { r with is_favorite := w } else r)
          = SavedRequest.clearFav := by
      funext r
      by_cases h : r.id = rid <;> simp [SavedRequest.clearFav, h]
    rw [hcomp]

/-- C8 witness: a concrete one-record store. -/
def sampleSaved : SavedRequest :=
  { id := "1", name := "me", method := "GET", endpoint := "/me", headers := [],
    body := "", category := "Users", is_favorite := false, created_at := 0 }

/-- C8 witness: patching the value already held is a no-op success, and the
double toggle restores the store. -/
theorem C8_witness :
    patchFavorite [sampleSaved] "1" false = some [sampleSaved] ∧
    toggleFavorite [{ sampleSaved with is_favorite := true }] "1" true
      = some [sampleSaved] :=
  ⟨(C8_favorite_patch [sampleSaved] "1" false rfl
      (by simp [sampleSaved])).1,
   (C8_favorite_patch [sampleSaved] "1" false rfl
      (by simp [sampleSaved])).2.1
     [{ sampleSaved with is_favorite := true }] rfl⟩

/-- C9: every execution appends exactly one history entry recording method,
endpoint, status code (or the non-HTTP sentinel) and timestamp; three
executions in sequence from an empty log produce a listing of length 3,
most recent first; `clear()` empties the listing. -/
theorem C9_history_log (hist : List HistoryEntry) (m1 e1 m2 e2 m3 e3 : String)
    (sc1 sc2 sc3 : Option Nat) (t1 t2 t3 : Nat) (m ep : String)
    (sc : Option Nat) (now : Nat) :
    (recordExecution hist m ep sc now).length = hist.length + 1 ∧
    (recordExecution hist m ep sc now).head? =
      some { method := m, endpoint := ep, status_code := sc, timestamp := now } ∧
    recordExecution (recordExecution (recordExecution [] m1 e1 sc1 t1)
        m2 e2 sc2 t2) m3 e3 sc3 t3 =
      [{ method := m3, endpoint := e3, status_code := sc3, timestamp := t3 },
       { method := m2, endpoint := e2, status_code := sc2, timestamp := t2 },
       { method := m1, endpoint := e1, status_code := sc1, timestamp := t1 }] ∧
    (recordExecution (recordExecution (recordExecution [] m1 e1 sc1 t1)
        m2 e2 sc2 t2) m3 e3 sc3 t3).length = 3 ∧
    historyClear hist = [] ∧
    (historyClear hist).length = 0 :=
  ⟨rfl, rfl, rfl, rfl, rfl, rfl⟩

/-- C10: the pre-flight checks run in a fixed order — missing credential,
then missing endpoint, then unresolved placeholder — and the attempt stops
at the first failing check, reporting exactly that one error: an empty
token wins over any endpoint defect, and an empty endpoint wins over the
placeholder check. -/
theorem C10_check_precedence (t e e' : String) :
    validate "" e = some ValidationError.MissingCredential ∧
    (t ≠ "" → validate t "" = some ValidationError.MissingEndpoint) ∧
    (t ≠ "" → e' ≠ "" → e'.data.contains ':' = true →
      validate t e' = some ValidationError.UnresolvedPlaceholder) := by
  refine ⟨by simp [validate], fun ht => by simp [validate, ht],
    fun ht he hc => ?_⟩
  have hm : ':' ∈ e'.data := by simpa using hc
  simp [validate, ht, he, hm]

/-- C10 witness: the endpoint `/files/:file_key` is defective in the
placeholder sense, yet with an empty token `MissingCredential` is the one
error reported. -/
theorem C10_witness :
    validate "" "/files/:file_key" = some ValidationError.MissingCredential ∧
    validate "tok" "" = some ValidationError.MissingEndpoint ∧
    validate "tok" "/files/:file_key" = some ValidationError.UnresolvedPlaceholder :=
  ⟨(C10_check_precedence "tok" "/files/:file_key" "/files/:file_key").1,
   (C10_check_precedence "tok" "/files/:file_key" "/files/:file_key").2.1 (by decide),
   (C10_check_precedence "tok" "/files/:file_key" "/files/:file_key").2.2
     (by decide) (by decide) (by decide)⟩

end Figapi
